import Mathlib

/-!
Shallow embedding of the core of the juniper-eager-loading library
(src/juniper-eager-loading/src/lib.rs): the edge-state types `DbEdge`,
`OptionDbEdge` and `VecDbEdge`, the type-keyed hit/miss-instrumented cache
(`DynamicCache`, `CacheInner`, `Cache`) and the batched eager-loading
orchestrator `eager_load_children` of the `EagerLoadChildrenOfType` trait.

Rust mutation (`&mut self`, `&mut [Self]`, atomic counters behind `&self`)
is embedded as explicit state passing: a method that mutates its receiver
returns the updated value alongside its result.  Trait methods without a
default body in the source (`child_id`, `load_children`, `is_child_of`,
`loaded_or_failed_child`, `load_from_cache`, `store_in_cache`, and the
recursive `eager_load_all_children_for_each`) become fields of a capability
record, mirroring trait-object style dependency injection.
-/

namespace JEL

/-- Edge state of a required single relationship slot (source enum `DbEdge<T>`:
variants `Loaded(T)`, `NotLoaded`, `LoadFailed`). -/
inductive DbEdge (T : Type) where
  | Loaded (val : T)
  | NotLoaded
  | LoadFailed
  deriving DecidableEq

/-- Source `DbEdge::loaded_or_failed`: `Some(inner)` replaces the state by
`Loaded(inner)`, `None` replaces it by `LoadFailed`, whatever it was before. -/
def DbEdge.loaded_or_failed : DbEdge T → Option T → DbEdge T
  | _, some inner => DbEdge.Loaded inner
  | _, none => DbEdge.LoadFailed

/-- True when the edge is `Loaded` or `LoadFailed`, false on `NotLoaded`. -/
def DbEdge.isLoadedOrFailed : DbEdge T → Bool
  | DbEdge.NotLoaded => false
  | _ => true

/-- Edge state of an optional relationship slot (source enum `OptionDbEdge<T>`:
variants `Loaded(Option<T>)`, `NotLoaded`; it has no failure variant). -/
inductive OptionDbEdge (T : Type) where
  | Loaded (val : Option T)
  | NotLoaded
  deriving DecidableEq

/-- Source `OptionDbEdge::loaded_or_failed`: unconditionally replaces the state
by `Loaded(inner)`, so a missing child becomes `Loaded(None)`. -/
def OptionDbEdge.loaded_or_failed : OptionDbEdge T → Option T → OptionDbEdge T
  | _, inner => OptionDbEdge.Loaded inner

/-- Edge state of a multi relationship slot (source enum `VecDbEdge<T>`:
variants `Loaded(Vec<T>)`, `NotLoaded`). -/
inductive VecDbEdge (T : Type) where
  | Loaded (vals : List T)
  | NotLoaded
  deriving DecidableEq

/-- Source `VecDbEdge::loaded_or_failed`: on a `Loaded` state it pushes a
`Some` value and drops a `None`; on `NotLoaded` it becomes `Loaded([inner])`
for `Some(inner)` and `Loaded([])` for `None`. -/
def VecDbEdge.loaded_or_failed : VecDbEdge T → Option T → VecDbEdge T
  | VecDbEdge.Loaded models, some inner => VecDbEdge.Loaded (models ++ [inner])
  | VecDbEdge.Loaded models, none => VecDbEdge.Loaded models
  | VecDbEdge.NotLoaded, some inner => VecDbEdge.Loaded [inner]
  | VecDbEdge.NotLoaded, none => VecDbEdge.Loaded []

/-- A `Box<dyn Any>` value: its runtime type id together with its payload,
encoded as a natural number. -/
structure AnyBox where
  tyId : Nat
  payload : Nat
  deriving DecidableEq

/-- The `downcast_ref::<V>` step of `DynamicCache::get`: succeeds with the
payload exactly when the stored runtime type id matches the expected one. -/
def downcastRef (vty : Nat) (b : AnyBox) : Option Nat :=
  if b.tyId = vty then some b.payload else none

/-- First entry of an association list whose key equals the requested key
(lookup semantics of the source `HashMap`). -/
def lookupEntries [DecidableEq K] : List ((Nat × K) × AnyBox) → Nat × K → Option AnyBox
  | [], _ => none
  | e :: rest, key => if e.1 = key then some e.2 else lookupEntries rest key

/-- Drop every entry with the given key (the overwrite part of the source
`HashMap::insert` semantics). -/
def removeKey [DecidableEq K] : List ((Nat × K) × AnyBox) → Nat × K → List ((Nat × K) × AnyBox)
  | [], _ => []
  | e :: rest, key => if e.1 = key then removeKey rest key else e :: removeKey rest key

/-- Source struct `DynamicCache<ValueKey>`: a `HashMap<(Box<TypeId>, ValueKey),
Box<dyn Any>>`, embedded as an association list from `(type id, key)` to a
type-tagged payload, with insert-overwrites and key-based lookup. -/
structure DynamicCache (K : Type) where
  entries : List ((Nat × K) × AnyBox)
  deriving DecidableEq

/-- Source `DynamicCache::new`. -/
def DynamicCache.new : DynamicCache K := ⟨[]⟩

/-- Source `DynamicCache::insert::<TypeKey, V>`: stores the boxed value under
the composite key `(TypeId::of::<TypeKey>(), key)`, overwriting any previous
entry for that composite key.  `tk` is the type id of `TypeKey` and `vty` the
runtime type id of `V`. -/
def DynamicCache.insert [DecidableEq K] (m : DynamicCache K) (tk vty : Nat) (key : K) (val : Nat) :
    DynamicCache K :=
  ⟨((tk, key), AnyBox.mk vty val) :: removeKey m.entries (tk, key)⟩

/-- Source `DynamicCache::get::<TypeKey, V>`: looks up the composite key and
downcasts the stored box to the expected value type `V` (type id `vty`). -/
def DynamicCache.get [DecidableEq K] (m : DynamicCache K) (tk vty : Nat) (key : K) : Option Nat :=
  (lookupEntries m.entries (tk, key)).bind (downcastRef vty)

/-- Source struct `CacheInner<K>`: the dynamic map plus the `hits` and
`misses` counters (atomics in the source, plain naturals here since the core
is single-threaded). -/
structure CacheInner (K : Type) where
  map : DynamicCache K
  hits : Nat
  misses : Nat
  deriving DecidableEq

/-- Source `impl Default for CacheInner`. -/
def CacheInner.new : CacheInner K := ⟨DynamicCache.new, 0, 0⟩

instance : Inhabited (CacheInner K) := ⟨CacheInner.new⟩

/-- Source `CacheInner::insert`: delegates to the map, counters untouched. -/
def CacheInner.insert [DecidableEq K] (c : CacheInner K) (tk vty : Nat) (key : K) (val : Nat) :
    CacheInner K :=
  { c with map := c.map.insert tk vty key val }

/-- Source `CacheInner::get`: performs the map lookup, then increments `hits`
when it produced a value and `misses` otherwise, returning the lookup result.
The counter mutation (atomic in the source) is returned as an updated state. -/
def CacheInner.get [DecidableEq K] (c : CacheInner K) (tk vty : Nat) (key : K) :
    Option Nat × CacheInner K :=
  match c.map.get tk vty key with
  | some v => (some v, { c with hits := c.hits + 1 })
  | none => (none, { c with misses := c.misses + 1 })

/-- Source enum `Cache<K>`: `NoCaching` or `Cache(CacheInner<K>)`.  The
enabled variant is called `Cache` in the source; Lean rejects a constructor
shadowing its own type name inside the `Cache` namespace, so it is named
`Enabled` here. -/
inductive Cache (K : Type) where
  | NoCaching
  | Enabled (inner : CacheInner K)
  deriving DecidableEq

/-- Source `Cache::new`: an enabled cache with a fresh inner state. -/
def Cache.new : Cache K := Cache.Enabled CacheInner.new

/-- Source `Cache::disabled`. -/
def Cache.disabled : Cache K := Cache.NoCaching

/-- Source `impl Default for Cache`: defaults to not performing any caching. -/
def Cache.default : Cache K := Cache.disabled

/-- Source `Cache::insert`: a no-op when disabled, delegation when enabled. -/
def Cache.insert [DecidableEq K] : Cache K → Nat → Nat → K → Nat → Cache K
  | Cache.NoCaching, _, _, _, _ => Cache.NoCaching
  | Cache.Enabled inner, tk, vty, key, val => Cache.Enabled (inner.insert tk vty key val)

/-- Source `Cache::get`: `None` without touching anything when disabled,
delegation (including the counter side effect) when enabled. -/
def Cache.get [DecidableEq K] : Cache K → Nat → Nat → K → Option Nat × Cache K
  | Cache.NoCaching, _, _, _ => (none, Cache.NoCaching)
  | Cache.Enabled inner, tk, vty, key =>
      match inner.get tk vty key with
      | (res, inner2) => (res, Cache.Enabled inner2)

/-- Source `Cache::hits`. -/
def Cache.hits : Cache K → Nat
  | Cache.NoCaching => 0
  | Cache.Enabled inner => inner.hits

/-- Source `Cache::misses`. -/
def Cache.misses : Cache K → Nat
  | Cache.NoCaching => 0
  | Cache.Enabled inner => inner.misses

/-- Source `Cache::hit_rate`: `0` when disabled; otherwise `0` when both
counters are zero and `hits / (hits + misses)` otherwise.  The source computes
in `f32`; the embedding uses exact rationals. -/
def Cache.hit_rate : Cache K → Rat
  | Cache.NoCaching => 0
  | Cache.Enabled inner =>
      let hits : Rat := inner.hits
      let misses : Rat := inner.misses
      if hits = 0 ∧ misses = 0 then 0 else hits / (hits + misses)

/-- One client operation against a `Cache`: an insert or an instrumented get,
each carrying the type-tag id `tk`, the expected value type id `vty` and the
key (and, for inserts, the stored payload). -/
inductive CacheOp (K : Type) where
  | insert (tk vty : Nat) (key : K) (val : Nat)
  | get (tk vty : Nat) (key : K)
  deriving DecidableEq

/-- Apply one operation to a cache, keeping only the cache state (the value a
get returns is dropped; its counter side effect is kept). -/
def Cache.step [DecidableEq K] (c : Cache K) : CacheOp K → Cache K
  | CacheOp.insert tk vty key val => c.insert tk vty key val
  | CacheOp.get tk vty key => (c.get tk vty key).2

/-- Run a sequence of cache operations left to right. -/
def Cache.run [DecidableEq K] : Cache K → List (CacheOp K) → Cache K
  | c, [] => c
  | c, op :: ops => Cache.run (c.step op) ops

/-- The cache state after running `ops` against an enabled cache that started
in inner state `inner`. -/
def afterOps [DecidableEq K] (inner : CacheInner K) (ops : List (CacheOp K)) : Cache K :=
  Cache.run (Cache.Enabled inner) ops

/-- Source enum `LoadResult<A, B>`: the outcome of one per-id cache probe. -/
inductive LoadResult (A B : Type) where
  | Loaded (val : A)
  | Missing (key : B)
  deriving DecidableEq

/-- Capability record for the source trait `EagerLoadChildrenOfType`: the
trait methods without a default body, plus the `Child`-side recursion
`eager_load_all_children_for_each`, become explicit function fields.  The
connection, query trail and cache type are folded into the closures / the
opaque cache state type `Cch`. -/
structure EagerLoadChildrenOfType
    (Node Child Model ChildModel ChildId Err Cch : Type) where
  child_id : Model → ChildId
  load_children : List ChildId → Except Err (List ChildModel)
  new_from_model : ChildModel → Child
  is_child_of : Node → Child → Bool
  loaded_or_failed_child : Node → Option Child → Node
  load_from_cache : List ChildId → Cch → List (LoadResult ChildModel ChildId)
  store_in_cache : ChildModel → Cch → Cch
  eager_load_all_children_for_each :
    List Child → List ChildModel → Cch → List Child × Cch × Except Err Unit

namespace EagerLoadChildrenOfType

variable {Node Child Model ChildModel ChildId Err Cch : Type}

/-- The `child_ids` local of `eager_load_children`: one projected child id per
source model, in model order. -/
def child_ids (cap : EagerLoadChildrenOfType Node Child Model ChildModel ChildId Err Cch)
    (models : List Model) : List ChildId :=
  models.map cap.child_id

/-- The `cached_child_models` local of `eager_load_children`: the per-id cache
probe results. -/
def cached_child_models
    (cap : EagerLoadChildrenOfType Node Child Model ChildModel ChildId Err Cch)
    (models : List Model) (cache : Cch) : List (LoadResult ChildModel ChildId) :=
  cap.load_from_cache (cap.child_ids models) cache

/-- The `Loaded` half of the split loop of `eager_load_children`: the models
found in the cache, in probe order. -/
def child_models_from_cache
    (cap : EagerLoadChildrenOfType Node Child Model ChildModel ChildId Err Cch)
    (models : List Model) (cache : Cch) : List ChildModel :=
  (cap.cached_child_models models cache).filterMap fun r =>
    match r with
    | LoadResult.Loaded m => some m
    | LoadResult.Missing _ => none

/-- The `Missing` half of the split loop of `eager_load_children`: the ids
that must be fetched from the store, in probe order. -/
def ids_to_load
    (cap : EagerLoadChildrenOfType Node Child Model ChildModel ChildId Err Cch)
    (models : List Model) (cache : Cch) : List ChildId :=
  (cap.cached_child_models models cache).filterMap fun r =>
    match r with
    | LoadResult.Loaded _ => none
    | LoadResult.Missing i => some i

/-- The `for model in &loaded_models { store_in_cache }` loop: insert each
freshly fetched model into the cache, left to right. -/
def store_all
    (cap : EagerLoadChildrenOfType Node Child Model ChildModel ChildId Err Cch)
    (ms : List ChildModel) (cache : Cch) : Cch :=
  ms.foldl (fun c m => cap.store_in_cache m c) cache

/-- Source `EagerLoadChildrenOfType::eager_load_children` (the provided trait
body).  The two `&mut` parameters, the node slice and the cache, are returned
next to the `Result<(), Error>` value; on an error they hold exactly what the
caller's referents would hold after the early `?` return: the untouched nodes
and the cache as of the failure point. -/
def eager_load_children
    (cap : EagerLoadChildrenOfType Node Child Model ChildModel ChildId Err Cch)
    (nodes : List Node) (models : List Model) (cache : Cch) :
    List Node × Cch × Except Err Unit :=
  match (if (cap.ids_to_load models cache).isEmpty then Except.ok []
         else cap.load_children (cap.ids_to_load models cache)) with
  | Except.error e => (nodes, cache, Except.error e)
  | Except.ok loaded_models =>
      match cap.eager_load_all_children_for_each
          ((cap.child_models_from_cache models cache ++ loaded_models).map cap.new_from_model)
          (cap.child_models_from_cache models cache ++ loaded_models)
          (cap.store_all loaded_models cache) with
      | (_, cache2, Except.error e) => (nodes, cache2, Except.error e)
      | (children2, cache2, Except.ok _) =>
          (nodes.map fun node =>
            cap.loaded_or_failed_child node
              (children2.find? fun c => cap.is_child_of node c),
           cache2, Except.ok ())

end EagerLoadChildrenOfType

/-- The first element of a list satisfying a predicate, by direct recursion:
the reference meaning of the first-match-wins tie-break. -/
def firstSatisfying (p : α → Bool) : List α → Option α
  | [] => none
  | x :: xs => if p x then some x else firstSatisfying p xs

/-- Modelled from the spec: the implementation of `load_from_cache` is
generated code (the derive crate), absent from src; per section 4.3 step 2 it
queries the cache for every computed child-id under this relationship's
type-tag, producing one `LoadResult` per id, `Loaded` if cached and
`Missing(id)` otherwise.  Models are identified with their ids (naturals). -/
def load_from_cache_model (tk vty : Nat) (ids : List Nat) (cache : Cache Nat) :
    List (LoadResult Nat Nat) :=
  ids.map fun i =>
    match (cache.get tk vty i).1 with
    | some v => LoadResult.Loaded v
    | none => LoadResult.Missing i

/-- Modelled from the spec: the implementation of `store_in_cache` is
generated code, absent from src; per section 4.3 step 4 it inserts the
freshly fetched model into the cache under this relationship's type-tag,
keyed by the model's own identity. -/
def store_in_cache_model (tk vty : Nat) (m : Nat) (cache : Cache Nat) : Cache Nat :=
  cache.insert tk vty m m

/-- A concrete, fully computable instance of the capability record over
natural-number models and ids: a node is its expected child id paired with a
required edge slot, `child_id` and `new_from_model` are identities, the cache
capabilities are the spec-modelled generated implementations, and the
recursion is the leaf (childless) instance that changes nothing.  The external
load capability `f` is the one remaining parameter. -/
def natCaps (f : List Nat → Except (List Nat) (List Nat)) :
    EagerLoadChildrenOfType (Nat × DbEdge Nat) Nat Nat Nat Nat (List Nat) (Cache Nat) where
  child_id := fun m => m
  load_children := f
  new_from_model := fun m => m
  is_child_of := fun n c => n.1 == c
  loaded_or_failed_child := fun n c => (n.1, n.2.loaded_or_failed c)
  load_from_cache := load_from_cache_model 0 0
  store_in_cache := store_in_cache_model 0 0
  eager_load_all_children_for_each := fun cs _ cache => (cs, cache, Except.ok ())

/-- Three parent nodes whose child-id projections will be 7, 7 and 9, with
fresh required edge slots. -/
def nodes779 : List (Nat × DbEdge Nat) :=
  [(7, DbEdge.NotLoaded), (7, DbEdge.NotLoaded), (9, DbEdge.NotLoaded)]

/-- Stepping a disabled cache leaves it disabled: both match arms for
`NoCaching` in `Cache::insert` and `Cache::get` do nothing. -/
theorem Cache.step_noCaching [DecidableEq K] (op : CacheOp K) :
    Cache.step (Cache.NoCaching : Cache K) op = Cache.NoCaching := by
  cases op <;> rfl

/-- Running any operation sequence against a disabled cache leaves it
disabled. -/
theorem Cache.run_noCaching [DecidableEq K] (ops : List (CacheOp K)) :
    Cache.run (Cache.NoCaching : Cache K) ops = Cache.NoCaching := by
  induction ops with
  | nil => rfl
  | cons op ops ih =>
      show Cache.run (Cache.step Cache.NoCaching op) ops = Cache.NoCaching
      rw [Cache.step_noCaching]
      exact ih

/-- Stepping an enabled cache leaves it enabled. -/
theorem Cache.step_enabled [DecidableEq K] (inner : CacheInner K) (op : CacheOp K) :
    ∃ inner2, Cache.step (Cache.Enabled inner) op = Cache.Enabled inner2 := by
  cases op with
  | insert tk vty key val => exact ⟨inner.insert tk vty key val, rfl⟩
  | get tk vty key =>
      refine ⟨(inner.get tk vty key).2, ?_⟩
      show (Cache.get (Cache.Enabled inner) tk vty key).2 = _
      rcases h : inner.get tk vty key with ⟨res, inner2⟩
      simp [Cache.get, h]

/-- Running any operation sequence against an enabled cache leaves it
enabled. -/
theorem Cache.run_enabled [DecidableEq K] (inner : CacheInner K) (ops : List (CacheOp K)) :
    ∃ inner2, Cache.run (Cache.Enabled inner) ops = Cache.Enabled inner2 := by
  induction ops generalizing inner with
  | nil => exact ⟨inner, rfl⟩
  | cons op ops ih =>
      obtain ⟨i2, h2⟩ := Cache.step_enabled inner op
      obtain ⟨i3, h3⟩ := ih i2
      refine ⟨i3, ?_⟩
      show Cache.run (Cache.step (Cache.Enabled inner) op) ops = _
      rw [h2]
      exact h3

/-- On an enabled cache, `insert` changes neither counter. -/
theorem Cache.insert_counters [DecidableEq K] (inner : CacheInner K)
    (tk vty : Nat) (key : K) (val : Nat) :
    ((Cache.Enabled inner).insert tk vty key val).hits = (Cache.Enabled inner).hits ∧
    ((Cache.Enabled inner).insert tk vty key val).misses = (Cache.Enabled inner).misses :=
  ⟨rfl, rfl⟩

/-- On an enabled cache, `get` increments `hits` by one exactly when it finds
a value and `misses` by one exactly when it does not. -/
theorem Cache.get_counters [DecidableEq K] (inner : CacheInner K) (tk vty : Nat) (key : K) :
    ((Cache.Enabled inner).get tk vty key).2.hits
      = (Cache.Enabled inner).hits
        + (if ((Cache.Enabled inner).get tk vty key).1.isSome then 1 else 0) ∧
    ((Cache.Enabled inner).get tk vty key).2.misses
      = (Cache.Enabled inner).misses
        + (if ((Cache.Enabled inner).get tk vty key).1.isSome then 0 else 1) := by
  rcases h : inner.map.get tk vty key with _ | v <;>
    simp [Cache.get, CacheInner.get, Cache.hits, Cache.misses, h]

/-- On an enabled cache, `hit_rate` is `hits / (hits + misses)`, or `0` when
both counters are zero. -/
theorem Cache.hit_rate_enabled (inner : CacheInner K) :
    (Cache.Enabled inner).hit_rate
      = (if (Cache.Enabled inner).hits = 0 ∧ (Cache.Enabled inner).misses = 0 then (0 : Rat)
         else ((Cache.Enabled inner).hits : Rat)
              / (((Cache.Enabled inner).hits : Rat) + ((Cache.Enabled inner).misses : Rat))) := by
  simp only [Cache.hit_rate, Cache.hits, Cache.misses, Nat.cast_eq_zero]

/-- Claim C2: for every sequence of insert and get calls on an enabled cache,
the cache stays enabled, each get that finds a value increments the hits
counter by exactly one and leaves misses alone, each get that finds nothing
increments the misses counter by exactly one and leaves hits alone, insert
never changes either counter, and hit_rate equals hits/(hits+misses) except
that it equals 0 when both counters are zero. -/
theorem cache_hit_miss_accounting (K : Type) [DecidableEq K] (inner : CacheInner K)
    (ops : List (CacheOp K)) :
    (∃ inner2, afterOps inner ops = Cache.Enabled inner2) ∧
    (∀ tk vty key val,
      ((afterOps inner ops).insert tk vty key val).hits = (afterOps inner ops).hits ∧
      ((afterOps inner ops).insert tk vty key val).misses = (afterOps inner ops).misses) ∧
    (∀ tk vty key,
      ((afterOps inner ops).get tk vty key).2.hits
        = (afterOps inner ops).hits
          + (if ((afterOps inner ops).get tk vty key).1.isSome then 1 else 0) ∧
      ((afterOps inner ops).get tk vty key).2.misses
        = (afterOps inner ops).misses
          + (if ((afterOps inner ops).get tk vty key).1.isSome then 0 else 1)) ∧
    (afterOps inner ops).hit_rate
      = (if (afterOps inner ops).hits = 0 ∧ (afterOps inner ops).misses = 0 then (0 : Rat)
         else ((afterOps inner ops).hits : Rat)
              / (((afterOps inner ops).hits : Rat) + ((afterOps inner ops).misses : Rat))) := by
  obtain ⟨inner2, h2⟩ := Cache.run_enabled inner ops
  have ha : afterOps inner ops = Cache.Enabled inner2 := h2
  rw [ha]
  exact ⟨⟨inner2, rfl⟩,
    fun tk vty key val => Cache.insert_counters inner2 tk vty key val,
    fun tk vty key => Cache.get_counters inner2 tk vty key,
    Cache.hit_rate_enabled inner2⟩

/-- Claim C3: for a cache constructed with disabled(), after any number of
insert and get calls in any order, every get returns None, hits() is 0,
misses() is 0 and hit_rate() is 0, regardless of the operations performed. -/
theorem disabled_cache_noop (K : Type) [DecidableEq K] (ops : List (CacheOp K)) :
    Cache.run (Cache.disabled : Cache K) ops = Cache.disabled ∧
    (∀ tk vty key, ((Cache.run (Cache.disabled : Cache K) ops).get tk vty key).1 = none) ∧
    (Cache.run (Cache.disabled : Cache K) ops).hits = 0 ∧
    (Cache.run (Cache.disabled : Cache K) ops).misses = 0 ∧
    (Cache.run (Cache.disabled : Cache K) ops).hit_rate = 0 := by
  have h : Cache.run (Cache.disabled : Cache K) ops = Cache.disabled :=
    Cache.run_noCaching ops
  refine ⟨h, fun tk vty key => ?_, ?_, ?_, ?_⟩ <;> rw [h] <;> rfl

/-- Claim C10: the Default instance of Cache is the disabled cache, so a
default cache behaves identically to a disabled one under any operation
sequence: every get returns None and all statistics report zero. -/
theorem default_cache_is_disabled (K : Type) [DecidableEq K] (ops : List (CacheOp K)) :
    (Cache.default : Cache K) = Cache.disabled ∧
    Cache.run (Cache.default : Cache K) ops = Cache.disabled ∧
    (∀ tk vty key, ((Cache.run (Cache.default : Cache K) ops).get tk vty key).1 = none) ∧
    (Cache.run (Cache.default : Cache K) ops).hits = 0 ∧
    (Cache.run (Cache.default : Cache K) ops).misses = 0 ∧
    (Cache.run (Cache.default : Cache K) ops).hit_rate = 0 := by
  have h : Cache.run (Cache.default : Cache K) ops = Cache.disabled :=
    Cache.run_noCaching ops
  refine ⟨rfl, h, fun tk vty key => ?_, ?_, ?_, ?_⟩ <;> rw [h] <;> rfl

/-- Claim C4: inserting value v1 under type-tag a and value v2 under a
distinct type-tag b, both with the same key, into an enabled cache and
reading back under each respective tag returns the originally inserted value
for that tag: no cross-tag leakage. -/
theorem cache_type_isolation (K : Type) [DecidableEq K] (inner : CacheInner K)
    (a b vty1 vty2 v1 v2 : Nat) (key : K) (hab : a ≠ b) :
    ((((Cache.Enabled inner).insert a vty1 key v1).insert b vty2 key v2).get a vty1 key).1
      = some v1 ∧
    ((((Cache.Enabled inner).insert a vty1 key v1).insert b vty2 key v2).get b vty2 key).1
      = some v2 := by
  have hba : b ≠ a := hab.symm
  constructor <;>
    simp [Cache.get, Cache.insert, CacheInner.get, CacheInner.insert,
      DynamicCache.get, DynamicCache.insert, lookupEntries, removeKey,
      downcastRef, Prod.mk.injEq, hab, hba]

/-- Witness for claim C4 at concrete inputs: tags 0 and 1, key 3, values 123
and 456. -/
theorem cache_type_isolation_witness :
    ((((Cache.Enabled (CacheInner.new : CacheInner Nat)).insert 0 5 3 123).insert 1 6 3 456).get
        0 5 3).1 = some 123 ∧
    ((((Cache.Enabled (CacheInner.new : CacheInner Nat)).insert 0 5 3 123).insert 1 6 3 456).get
        1 6 3).1 = some 456 :=
  cache_type_isolation Nat CacheInner.new 0 1 5 6 123 456 3 (by decide)

/-- Claim C6: updating a required edge with no matching child yields
LoadFailed and with a child yields Loaded; updating an optional edge with no
matching child yields Loaded(None), never an error state (the type has no
failure variant), and with a child yields Loaded(Some). -/
theorem single_edge_update_rule (T : Type) (e : DbEdge T) (oe : OptionDbEdge T) (v : T) :
    e.loaded_or_failed none = DbEdge.LoadFailed ∧
    e.loaded_or_failed (some v) = DbEdge.Loaded v ∧
    oe.loaded_or_failed none = OptionDbEdge.Loaded none ∧
    oe.loaded_or_failed (some v) = OptionDbEdge.Loaded (some v) := by
  cases e <;> cases oe <;> exact ⟨rfl, rfl, rfl, rfl⟩

/-- Claim C7: a multi edge starting NotLoaded becomes Loaded([v]) on Some(v)
and Loaded([]) on None; once Loaded it appends on Some(v) and is unchanged on
None — a missing single item never fails the edge. -/
theorem vec_edge_update_rule (T : Type) (xs : List T) (v : T) :
    VecDbEdge.loaded_or_failed (VecDbEdge.NotLoaded : VecDbEdge T) (some v)
      = VecDbEdge.Loaded [v] ∧
    VecDbEdge.loaded_or_failed (VecDbEdge.NotLoaded : VecDbEdge T) none
      = VecDbEdge.Loaded [] ∧
    VecDbEdge.loaded_or_failed (VecDbEdge.Loaded xs) (some v)
      = VecDbEdge.Loaded (xs ++ [v]) ∧
    VecDbEdge.loaded_or_failed (VecDbEdge.Loaded xs) none
      = VecDbEdge.Loaded xs :=
  ⟨rfl, rfl, rfl, rfl⟩

/-- `List.find?` returns the first element satisfying the predicate. -/
theorem find?_eq_firstSatisfying (p : α → Bool) (l : List α) :
    l.find? p = firstSatisfying p l := by
  induction l with
  | nil => rfl
  | cons x xs ih => cases hb : p x <;> simp [List.find?, firstSatisfying, hb, ih]

/-- Unfolding equation for `eager_load_children` when the batched load step
fails: the nodes and the cache are handed back untouched with the error. -/
theorem EagerLoadChildrenOfType.eager_load_children_error_eq
    {Node Child Model ChildModel ChildId Err Cch : Type}
    (cap : EagerLoadChildrenOfType Node Child Model ChildModel ChildId Err Cch)
    (nodes : List Node) (models : List Model) (cache : Cch) (e1 : Err)
    (hL : (if (cap.ids_to_load models cache).isEmpty then Except.ok []
           else cap.load_children (cap.ids_to_load models cache)) = Except.error e1) :
    cap.eager_load_children nodes models cache = (nodes, cache, Except.error e1) := by
  unfold EagerLoadChildrenOfType.eager_load_children
  rw [hL]

/-- Unfolding equation for `eager_load_children` when the batched load step
succeeds: the outcome is decided by the recursive call on the children built
from the cached models followed by the freshly loaded ones, over the cache
with every freshly loaded model inserted. -/
theorem EagerLoadChildrenOfType.eager_load_children_ok_eq
    {Node Child Model ChildModel ChildId Err Cch : Type}
    (cap : EagerLoadChildrenOfType Node Child Model ChildModel ChildId Err Cch)
    (nodes : List Node) (models : List Model) (cache : Cch) (lm : List ChildModel)
    (hL : (if (cap.ids_to_load models cache).isEmpty then Except.ok []
           else cap.load_children (cap.ids_to_load models cache)) = Except.ok lm) :
    cap.eager_load_children nodes models cache =
      match cap.eager_load_all_children_for_each
          ((cap.child_models_from_cache models cache ++ lm).map cap.new_from_model)
          (cap.child_models_from_cache models cache ++ lm)
          (cap.store_all lm cache) with
      | (_, cache2, Except.error e) => (nodes, cache2, Except.error e)
      | (children2, cache2, Except.ok _) =>
          (nodes.map fun node =>
            cap.loaded_or_failed_child node
              (children2.find? fun c => cap.is_child_of node c),
           cache2, Except.ok ()) := by
  unfold EagerLoadChildrenOfType.eager_load_children
  rw [hL]

/-- Claim C5: whenever `eager_load_children` over nodes carrying a required
edge slot returns Ok, every node's edge slot is afterwards Loaded or
LoadFailed, never left NotLoaded. -/
theorem eager_load_sets_every_edge
    (Data Child Model ChildModel ChildId Err Cch : Type)
    (cap : EagerLoadChildrenOfType (Data × DbEdge Child) Child Model ChildModel ChildId Err Cch)
    (hupd : cap.loaded_or_failed_child = fun n c => (n.1, n.2.loaded_or_failed c))
    (nodes : List (Data × DbEdge Child)) (models : List Model) (cache : Cch)
    (ns2 : List (Data × DbEdge Child)) (cache2 : Cch)
    (hok : cap.eager_load_children nodes models cache = (ns2, cache2, Except.ok ())) :
    ns2.all (fun p => p.2.isLoadedOrFailed) = true := by
  unfold EagerLoadChildrenOfType.eager_load_children at hok
  split at hok
  · simp at hok
  · split at hok
    · simp at hok
    · simp only [Prod.mk.injEq] at hok
      obtain ⟨h1, -, -⟩ := hok
      subst h1
      rw [hupd]
      simp only [List.all_eq_true]
      intro p hp
      obtain ⟨n, -, rfl⟩ := List.mem_map.1 hp
      cases List.find? _ _ <;> rfl

/-- Witness for claim C5: a concrete run over the three parents with child
ids 7, 7, 9, an echoing load capability and an empty enabled cache returns
Ok, and every resulting edge slot is Loaded or LoadFailed. -/
theorem eager_load_sets_every_edge_witness :
    (((natCaps (fun ids => Except.ok ids)).eager_load_children nodes779 [7, 7, 9]
        Cache.new).1).all (fun p => p.2.isLoadedOrFailed) = true :=
  eager_load_sets_every_edge Nat Nat Nat Nat Nat (List Nat) (Cache Nat)
    (natCaps (fun ids => Except.ok ids)) rfl nodes779 [7, 7, 9] Cache.new
    ((natCaps (fun ids => Except.ok ids)).eager_load_children nodes779 [7, 7, 9] Cache.new).1
    ((natCaps (fun ids => Except.ok ids)).eager_load_children nodes779 [7, 7, 9] Cache.new).2.1
    rfl

/-- Claim C8: when the batched load succeeds (and the recursion is the leaf
instance), the child assigned to each node's edge slot is the first child
satisfying that node's predicate in construction order, where construction
order is the cached child models first, in probe order, followed by the
freshly fetched models in the order the load capability returned them. -/
theorem eager_first_match_in_construction_order
    (Node Child Model ChildModel ChildId Err Cch : Type)
    (cap : EagerLoadChildrenOfType Node Child Model ChildModel ChildId Err Cch)
    (hleaf : cap.eager_load_all_children_for_each
      = fun cs _ cache => (cs, cache, Except.ok ()))
    (nodes : List Node) (models : List Model) (cache : Cch) (fetched : List ChildModel)
    (hload : (if (cap.ids_to_load models cache).isEmpty then Except.ok []
              else cap.load_children (cap.ids_to_load models cache)) = Except.ok fetched) :
    (cap.eager_load_children nodes models cache).1 =
      nodes.map (fun node =>
        cap.loaded_or_failed_child node
          (firstSatisfying (fun c => cap.is_child_of node c)
            ((cap.child_models_from_cache models cache ++ fetched).map cap.new_from_model))) := by
  unfold EagerLoadChildrenOfType.eager_load_children
  rw [hload, hleaf]
  simp [find?_eq_firstSatisfying]

/-- Witness for claim C8: at the concrete run with child ids 7, 7, 9 and an
echoing load capability, each node receives the first matching child of the
construction-order list. -/
theorem eager_first_match_in_construction_order_witness :
    ((natCaps (fun ids => Except.ok ids)).eager_load_children nodes779 [7, 7, 9]
        Cache.new).1 =
      nodes779.map (fun node =>
        (natCaps (fun ids => Except.ok ids)).loaded_or_failed_child node
          (firstSatisfying (fun c => (natCaps (fun ids => Except.ok ids)).is_child_of node c)
            (((natCaps (fun ids => Except.ok ids)).child_models_from_cache [7, 7, 9] Cache.new
                ++ [7, 7, 9]).map (natCaps (fun ids => Except.ok ids)).new_from_model))) :=
  eager_first_match_in_construction_order (Nat × DbEdge Nat) Nat Nat Nat Nat (List Nat)
    (Cache Nat) (natCaps (fun ids => Except.ok ids)) rfl nodes779 [7, 7, 9] Cache.new
    [7, 7, 9] rfl

/-- Claim C9: whenever `eager_load_children` ends in an error, the error of
the failing capability is propagated unchanged, the nodes come back with no
edge slot updated, and the returned cache is exactly the cache as of the
failure point: the input cache when the batched load itself failed (no entry
of this level inserted yet), or the recursion's output cache, which received
all of this level's freshly fetched models before the recursion failed (no
rollback). -/
theorem eager_load_error_propagation
    (Node Child Model ChildModel ChildId Err Cch : Type)
    (cap : EagerLoadChildrenOfType Node Child Model ChildModel ChildId Err Cch)
    (nodes : List Node) (models : List Model) (cache : Cch) (e : Err)
    (herr : (cap.eager_load_children nodes models cache).2.2 = Except.error e) :
    (cap.eager_load_children nodes models cache).1 = nodes ∧
    (((cap.ids_to_load models cache).isEmpty = false
        ∧ cap.load_children (cap.ids_to_load models cache) = Except.error e
        ∧ (cap.eager_load_children nodes models cache).2.1 = cache)
     ∨ (∃ fetched cs2 cache2,
          (if (cap.ids_to_load models cache).isEmpty then Except.ok []
           else cap.load_children (cap.ids_to_load models cache)) = Except.ok fetched ∧
          cap.eager_load_all_children_for_each
              ((cap.child_models_from_cache models cache ++ fetched).map cap.new_from_model)
              (cap.child_models_from_cache models cache ++ fetched)
              (cap.store_all fetched cache)
            = (cs2, cache2, Except.error e) ∧
          (cap.eager_load_children nodes models cache).2.1 = cache2)) := by
  rcases hL : (if (cap.ids_to_load models cache).isEmpty then Except.ok []
               else cap.load_children (cap.ids_to_load models cache)) with e1 | lm
  · have heq := cap.eager_load_children_error_eq nodes models cache e1 hL
    rw [heq] at herr
    simp only [Except.error.injEq] at herr
    subst herr
    by_cases hemp : (cap.ids_to_load models cache).isEmpty
    · rw [if_pos hemp] at hL
      cases hL
    · rw [if_neg hemp] at hL
      exact ⟨by rw [heq], Or.inl ⟨by simpa using hemp, hL, by rw [heq]⟩⟩
  · have heq := cap.eager_load_children_ok_eq nodes models cache lm hL
    rcases hR : cap.eager_load_all_children_for_each
        ((cap.child_models_from_cache models cache ++ lm).map cap.new_from_model)
        (cap.child_models_from_cache models cache ++ lm)
        (cap.store_all lm cache) with ⟨cs2, cch2, exc⟩
    rw [hR] at heq
    cases exc with
    | error e2 =>
        simp only at heq
        rw [heq] at herr
        simp only [Except.error.injEq] at herr
        subst herr
        exact ⟨by rw [heq], Or.inr ⟨lm, cs2, cch2, rfl, hR, by rw [heq]⟩⟩
    | ok u =>
        simp only at heq
        rw [heq] at herr
        cases herr

/-- Witness for claim C9: with a load capability that always fails with the
error 42, the concrete run propagates exactly that error. -/
theorem eager_load_error_propagation_witness :
    ((natCaps (fun _ => Except.error [42])).eager_load_children nodes779 [7, 7, 9]
        Cache.new).1 = nodes779 ∧
    ((((natCaps (fun _ => Except.error [42])).ids_to_load [7, 7, 9] Cache.new).isEmpty = false
        ∧ (natCaps (fun _ => Except.error [42])).load_children
            ((natCaps (fun _ => Except.error [42])).ids_to_load [7, 7, 9] Cache.new)
            = Except.error [42]
        ∧ ((natCaps (fun _ => Except.error [42])).eager_load_children nodes779 [7, 7, 9]
            Cache.new).2.1 = Cache.new)
     ∨ (∃ fetched cs2 cache2,
          (if (((natCaps (fun _ => Except.error [42])).ids_to_load [7, 7, 9]
                  Cache.new)).isEmpty then Except.ok []
           else (natCaps (fun _ => Except.error [42])).load_children
                  ((natCaps (fun _ => Except.error [42])).ids_to_load [7, 7, 9] Cache.new))
            = Except.ok fetched ∧
          (natCaps (fun _ => Except.error [42])).eager_load_all_children_for_each
              (((natCaps (fun _ => Except.error [42])).child_models_from_cache [7, 7, 9]
                  Cache.new ++ fetched).map
                (natCaps (fun _ => Except.error [42])).new_from_model)
              ((natCaps (fun _ => Except.error [42])).child_models_from_cache [7, 7, 9]
                  Cache.new ++ fetched)
              ((natCaps (fun _ => Except.error [42])).store_all fetched Cache.new)
            = (cs2, cache2, Except.error [42]) ∧
          ((natCaps (fun _ => Except.error [42])).eager_load_children nodes779 [7, 7, 9]
              Cache.new).2.1 = cache2)) :=
  eager_load_error_propagation (Nat × DbEdge Nat) Nat Nat Nat Nat (List Nat) (Cache Nat)
    (natCaps (fun _ => Except.error [42])) nodes779 [7, 7, 9] Cache.new [42] rfl

/-- Counterexample to claim C1 as stated: with three parents whose child-id
projections are 7, 7, 9 and an empty enabled cache, the external load
capability is invoked with the per-parent missing-id list [7, 7, 9] including
the duplicate, not with the deduplicated [7, 9].  The load capability here
reports its own argument as the error, so the returned error is exactly the
id list it was invoked with. -/
theorem dedup_counterexample :
    ((natCaps (fun ids => Except.error ids)).eager_load_children nodes779 [7, 7, 9]
        Cache.new).2.2 = Except.error [7, 7, 9] ∧
    ([7, 7, 9] : List Nat) ≠ [7, 9] := by
  exact ⟨rfl, by decide⟩

/-- Claim C1 as amended: for the three parents with child-id projections
7, 7, 9 and an empty enabled cache, the external load capability is invoked
exactly once, with the list of per-parent missing ids [7, 7, 9] in projection
order, duplicates retained; the whole outcome of `eager_load_children`
depends on the load capability only through its value at [7, 7, 9]. -/
theorem load_invoked_once_with_missing_id_list
    (f : List Nat → Except (List Nat) (List Nat)) :
    (natCaps f).eager_load_children nodes779 [7, 7, 9] Cache.new =
      match f [7, 7, 9] with
      | Except.error e => (nodes779, Cache.new, Except.error e)
      | Except.ok lst =>
          (nodes779.map (fun n =>
             (n.1, n.2.loaded_or_failed (firstSatisfying (fun c => n.1 == c) lst))),
           (natCaps f).store_all lst Cache.new, Except.ok ()) := by
  rcases hf : f [7, 7, 9] with e | lst
  · have hL : (if ((natCaps f).ids_to_load [7, 7, 9] Cache.new).isEmpty then Except.ok []
               else (natCaps f).load_children ((natCaps f).ids_to_load [7, 7, 9] Cache.new))
          = Except.error e := hf
    rw [(natCaps f).eager_load_children_error_eq nodes779 [7, 7, 9] Cache.new e hL]
  · have hL : (if ((natCaps f).ids_to_load [7, 7, 9] Cache.new).isEmpty then Except.ok []
               else (natCaps f).load_children ((natCaps f).ids_to_load [7, 7, 9] Cache.new))
          = Except.ok lst := hf
    rw [(natCaps f).eager_load_children_ok_eq nodes779 [7, 7, 9] Cache.new lst hL]
    have hcached : (natCaps f).child_models_from_cache [7, 7, 9] Cache.new = [] := rfl
    rw [hcached]
    simp only [List.nil_append]
    have hrec : (natCaps f).eager_load_all_children_for_each (lst.map (natCaps f).new_from_model)
        lst ((natCaps f).store_all lst Cache.new)
        = (lst.map (natCaps f).new_from_model, (natCaps f).store_all lst Cache.new,
           Except.ok ()) := rfl
    rw [hrec]
    have hmap : lst.map (natCaps f).new_from_model = lst := List.map_id' lst
    simp only [hmap]
    simp [natCaps, find?_eq_firstSatisfying]

end JEL
